import Mathlib

/-!
# Shallow embedding of the `webrtc` crate (25C2-cargo-y-descargo-calandria)

This file embeds, definition by definition, the parts of the repository's
`webrtc` crate that the verified properties talk about:

* `crypto/srtp.rs` — the lightweight XOR-based SRTP context;
* `protocols/rtp/rtp_header.rs` — the RTP header reader/writer;
* `rtc/jitter_buffer/{j_buffer,frame_buffer}.rs` — the jitter buffer;
* `rtc/rtc_rtp/rtc_rtp_sender.rs` and `codec/h264/encoder.rs` — H.264
  packetization (single NAL vs FU-A fragmentation);
* `ice/connectivity.rs` and `ice/gathering.rs` — ICE priorities;
* `rtc/rtc_peer_connection.rs` — role gating of SDP negotiation;
* `sdp_helper.rs` / `protocols/sdp/session_description.rs` — SDP extraction;
* `worker_thread/media_metrics.rs` — RTCP receiver-report statistics.

Machine integers (`u8`/`u16`/`u32`/`u64`) are embedded as `Nat` with an
explicit `% 2 ^ w` wherever the Rust code can wrap (we follow release-build
wrapping semantics for `+`, `*`, `<<`); `Vec<u8>`/`&[u8]` become `List Nat`;
`Option`/`Result` become `Option`/`Except`.  `HashMap` iteration order is
embedded as association-list (insertion) order.  Clock- and float-valued
fields (`Instant`, `f64` jitter) are outside the embedding and are omitted
from the structures that carry them; no verified property mentions them.
-/

/-! ## Byte-level helpers (`u16::to_be_bytes`, `u32::to_be_bytes`, …) -/

/-- `u16::to_be_bytes`: big-endian byte pair of a 16-bit value. -/
def toBeBytes16 (x : Nat) : List Nat :=
  [x / 2 ^ 8 % 256, x % 256]

/-- `u32::to_be_bytes`: big-endian bytes of a 32-bit value. -/
def toBeBytes32 (x : Nat) : List Nat :=
  [x / 2 ^ 24 % 256, x / 2 ^ 16 % 256, x / 2 ^ 8 % 256, x % 256]

/-- `u16::from_be_bytes`. -/
def fromBeBytes16 (b0 b1 : Nat) : Nat := b0 * 256 + b1

/-- `u32::from_be_bytes`. -/
def fromBeBytes32 (b0 b1 b2 b3 : Nat) : Nat :=
  ((b0 * 256 + b1) * 256 + b2) * 256 + b3

/-- `u32::wrapping_sub` on values below `2 ^ 32`. -/
def wrappingSub32 (a b : Nat) : Nat := (a + 2 ^ 32 - b % 2 ^ 32) % 2 ^ 32

/-- `u16::wrapping_sub` on values below `2 ^ 16`. -/
def wrappingSub16 (a b : Nat) : Nat := (a + 2 ^ 16 - b % 2 ^ 16) % 2 ^ 16

/-! ## `crypto/srtp.rs` -/

/-- `SrtpContext`: the shared key of the SRTP-light scheme. -/
structure SrtpContext where
  key : List Nat
deriving DecidableEq, Repr

/-- `SrtpContext::new`: expects a key of at least 16 bytes. -/
def SrtpContext.new (key_bytes : List Nat) : Option SrtpContext :=
  if key_bytes.length < 16 then none else some ⟨key_bytes⟩

/-- `SrtpContext::keystream`: pseudo-random stream derived from
`timestamp.to_be_bytes ++ seq.to_be_bytes ++ key`; byte `i` is
`seed[i % n] ^ (seed[(i+3) % n].wrapping_add(i as u8))`. -/
def SrtpContext.keystream (ctx : SrtpContext) (seq timestamp len : Nat) : List Nat :=
  let seed := toBeBytes32 timestamp ++ toBeBytes16 seq ++ ctx.key
  (List.range len).map (fun i =>
    seed.getD (i % seed.length) 0 ^^^
      ((seed.getD ((i + 3) % seed.length) 0 + i % 256) % 256))

/-- `SrtpContext::protect`: XOR the payload with the keystream. -/
def SrtpContext.protect (ctx : SrtpContext) (seq timestamp : Nat)
    (payload : List Nat) : Option (List Nat) :=
  some (List.zipWith (· ^^^ ·) payload (ctx.keystream seq timestamp payload.length))

/-- `SrtpContext::unprotect`: XOR the ciphertext with the keystream. -/
def SrtpContext.unprotect (ctx : SrtpContext) (seq timestamp : Nat)
    (cipher_text : List Nat) : Option (List Nat) :=
  some (List.zipWith (· ^^^ ·) cipher_text (ctx.keystream seq timestamp cipher_text.length))

lemma SrtpContext.keystream_length (ctx : SrtpContext) (seq timestamp len : Nat) :
    (ctx.keystream seq timestamp len).length = len := by
  simp [SrtpContext.keystream]

lemma zipWith_xor_cancel : ∀ (p ks : List Nat),
    List.zipWith (· ^^^ ·) (List.zipWith (· ^^^ ·) p ks) ks = p.take ks.length := by
  intro p
  induction p with
  | nil => intro ks; simp
  | cons a p ih =>
    intro ks
    cases ks with
    | nil => simp
    | cons k ks => simp [ih, Nat.xor_cancel_right]

/-- C1: for a context built from a key of at least 16 bytes,
`unprotect (seq, ts, protect (seq, ts, payload))` yields the payload. -/
theorem srtp_protect_unprotect_roundtrip (key : List Nat) (ctx : SrtpContext)
    (hctx : SrtpContext.new key = some ctx) (seq ts : Nat) (payload : List Nat) :
    (ctx.protect seq ts payload).bind (fun c => ctx.unprotect seq ts c) = some payload := by
  have hlen : (List.zipWith (· ^^^ ·) payload (ctx.keystream seq ts payload.length)).length
      = payload.length := by
    simp [List.length_zipWith, SrtpContext.keystream_length]
  simp only [SrtpContext.protect, SrtpContext.unprotect, Option.some_bind, hlen]
  rw [zipWith_xor_cancel]
  simp [SrtpContext.keystream_length]

/-- Witness for C1 at a concrete key/packet. -/
theorem srtp_protect_unprotect_roundtrip_witness :
    ((⟨List.replicate 16 1⟩ : SrtpContext).protect 42 123456 [104, 111, 108, 97]).bind
      (fun c => (⟨List.replicate 16 1⟩ : SrtpContext).unprotect 42 123456 c)
      = some [104, 111, 108, 97] :=
  srtp_protect_unprotect_roundtrip (List.replicate 16 1) ⟨List.replicate 16 1⟩
    (by decide) 42 123456 [104, 111, 108, 97]

/-- C10: `unprotect` never rejects: for every context built from a key of at
least 16 bytes and any ciphertext (under any `seq`/`ts`), it returns `some`
of a byte string of the input's length. -/
theorem srtp_unprotect_never_fails (key : List Nat) (ctx : SrtpContext)
    (hctx : SrtpContext.new key = some ctx) (seq ts : Nat) (cipher_text : List Nat) :
    ∃ pt, ctx.unprotect seq ts cipher_text = some pt ∧ pt.length = cipher_text.length := by
  refine ⟨_, rfl, ?_⟩
  simp [List.length_zipWith, SrtpContext.keystream_length]

/-- Witness for C10: a ciphertext that was never produced by `protect`
(here, presented under a different `seq`/`ts` than any protection) is still
accepted. -/
theorem srtp_unprotect_never_fails_witness :
    ∃ pt, (⟨List.replicate 16 9⟩ : SrtpContext).unprotect 7 99 [1, 2, 3, 4, 5] = some pt ∧
      pt.length = 5 :=
  srtp_unprotect_never_fails (List.replicate 16 9) ⟨List.replicate 16 9⟩ (by decide) 7 99
    [1, 2, 3, 4, 5]

/-! ## `protocols/rtp/rtp_header.rs` -/

/-- `RtpHeader` with its bit-fields (`version`/`csrc_count`/`payload_type`
are `u8` sub-fields, `sequence_number : u16`, `timestamp ssrc : u32`). -/
structure RtpHeader where
  version : Nat
  padding : Bool
  extension : Bool
  csrc_count : Nat
  marker : Bool
  payload_type : Nat
  sequence_number : Nat
  timestamp : Nat
  ssrc : Nat
  csrc_list : List Nat
deriving DecidableEq, Repr

/-- `RtpHeader::write_bytes`: byte 0 packs version/padding/extension/CSRC
count, byte 1 packs marker/payload type, then seq, timestamp, ssrc and the
CSRC list, all big-endian. -/
def RtpHeader.write_bytes (h : RtpHeader) : List Nat :=
  let byte0 := (h.version <<< 6) % 256 ||| (cond h.padding 1 0) <<< 5 |||
    (cond h.extension 1 0) <<< 4 ||| (h.csrc_count &&& 15)
  let byte1 := (cond h.marker 1 0) <<< 7 ||| (h.payload_type &&& 127)
  byte0 :: byte1 :: (toBeBytes16 h.sequence_number ++ toBeBytes32 h.timestamp ++
    toBeBytes32 h.ssrc ++ h.csrc_list.flatMap toBeBytes32)

/-- `RtpHeader::read_bytes`: unpacks the bit-fields and reads
`csrc_count` CSRC entries; also returns the header size
`12 + csrc_count * 4`. -/
def RtpHeader.read_bytes (protocol_bytes : List Nat) : RtpHeader × Nat :=
  let byte0 := protocol_bytes.getD 0 0
  let version := (byte0 >>> 6) &&& 3
  let padding := (byte0 >>> 5) &&& 1 != 0
  let extension := (byte0 >>> 4) &&& 1 != 0
  let csrc_count := byte0 &&& 15
  let byte1 := protocol_bytes.getD 1 0
  let marker := byte1 >>> 7 != 0
  let payload_type := byte1 &&& 127
  let sequence_number := fromBeBytes16 (protocol_bytes.getD 2 0) (protocol_bytes.getD 3 0)
  let timestamp := fromBeBytes32 (protocol_bytes.getD 4 0) (protocol_bytes.getD 5 0)
    (protocol_bytes.getD 6 0) (protocol_bytes.getD 7 0)
  let ssrc := fromBeBytes32 (protocol_bytes.getD 8 0) (protocol_bytes.getD 9 0)
    (protocol_bytes.getD 10 0) (protocol_bytes.getD 11 0)
  let header_size := 12 + csrc_count * 4
  let csrc_list := (List.range csrc_count).map (fun i =>
    fromBeBytes32 (protocol_bytes.getD (12 + i * 4) 0) (protocol_bytes.getD (12 + i * 4 + 1) 0)
      (protocol_bytes.getD (12 + i * 4 + 2) 0) (protocol_bytes.getD (12 + i * 4 + 3) 0))
  (⟨version, padding, extension, csrc_count, marker, payload_type, sequence_number,
    timestamp, ssrc, csrc_list⟩, header_size)

lemma fromBeBytes16_toBeBytes16 (x : Nat) (hx : x < 2 ^ 16) :
    fromBeBytes16 (x / 2 ^ 8 % 256) (x % 256) = x := by
  simp only [fromBeBytes16]
  omega

lemma fromBeBytes32_toBeBytes32 (x : Nat) (hx : x < 2 ^ 32) :
    fromBeBytes32 (x / 2 ^ 24 % 256) (x / 2 ^ 16 % 256) (x / 2 ^ 8 % 256) (x % 256) = x := by
  simp only [fromBeBytes32]
  omega

lemma byte0_fields : ∀ v < 4, ∀ pb < 2, ∀ eb < 2, ∀ cc < 16,
    ((((v <<< 6) % 256 ||| pb <<< 5 ||| eb <<< 4 ||| (cc &&& 15)) >>> 6) &&& 3 = v) ∧
    ((((v <<< 6) % 256 ||| pb <<< 5 ||| eb <<< 4 ||| (cc &&& 15)) >>> 5) &&& 1 = pb) ∧
    ((((v <<< 6) % 256 ||| pb <<< 5 ||| eb <<< 4 ||| (cc &&& 15)) >>> 4) &&& 1 = eb) ∧
    (((v <<< 6) % 256 ||| pb <<< 5 ||| eb <<< 4 ||| (cc &&& 15)) &&& 15 = cc) := by
  decide

lemma byte1_fields : ∀ m < 2, ∀ pt < 128,
    ((m <<< 7 ||| (pt &&& 127)) >>> 7 = m) ∧
    ((m <<< 7 ||| (pt &&& 127)) &&& 127 = pt) := by
  decide

lemma csrc_read_flatMap : ∀ (cl : List Nat), (∀ c ∈ cl, c < 2 ^ 32) →
    (List.range cl.length).map (fun i =>
      fromBeBytes32 ((cl.flatMap toBeBytes32).getD (i * 4) 0)
        ((cl.flatMap toBeBytes32).getD (i * 4 + 1) 0)
        ((cl.flatMap toBeBytes32).getD (i * 4 + 2) 0)
        ((cl.flatMap toBeBytes32).getD (i * 4 + 3) 0)) = cl := by
  intro cl
  induction cl with
  | nil => intro _; simp
  | cons c cl ih =>
    intro hb
    have hc : c < 2 ^ 32 := hb c (List.mem_cons_self c cl)
    simp only [List.flatMap_cons, List.length_cons, List.range_succ_eq_map,
      List.map_cons, List.map_map]
    congr 1
    · simpa [toBeBytes32] using fromBeBytes32_toBeBytes32 c hc
    · refine Eq.trans (List.map_congr_left fun i _ => ?_)
        (ih (fun d hd => hb d (List.mem_cons_of_mem c hd)))
      simp only [Function.comp_apply, toBeBytes32, List.cons_append, List.nil_append]
      rw [show Nat.succ i * 4 = i * 4 + 4 by omega,
        show i * 4 + 4 + 1 = (i * 4 + 1) + 4 by omega,
        show i * 4 + 4 + 2 = (i * 4 + 2) + 4 by omega,
        show i * 4 + 4 + 3 = (i * 4 + 3) + 4 by omega]
      simp

/-- C6: for an `RtpHeader` whose bit-fields are in range and whose
`csrc_count` matches its CSRC list, `read_bytes (write_bytes h)`
reconstructs `h` exactly and reports a header size of
`12 + 4 * csrc_count` bytes. -/
theorem rtp_header_read_write_roundtrip (h : RtpHeader)
    (hv : h.version < 4) (hpt : h.payload_type < 128)
    (hcc : h.csrc_count ≤ 15) (hcl_len : h.csrc_count = h.csrc_list.length)
    (hseq : h.sequence_number < 2 ^ 16) (hts : h.timestamp < 2 ^ 32)
    (hssrc : h.ssrc < 2 ^ 32) (hcl : ∀ c ∈ h.csrc_list, c < 2 ^ 32) :
    RtpHeader.read_bytes h.write_bytes = (h, 12 + 4 * h.csrc_count) := by
  obtain ⟨hb0v, hb0p, hb0e, hb0c⟩ :=
    byte0_fields h.version hv (cond h.padding 1 0) (by cases h.padding <;> decide)
      (cond h.extension 1 0) (by cases h.extension <;> decide) h.csrc_count
      (by omega)
  obtain ⟨hb1m, hb1pt⟩ :=
    byte1_fields (cond h.marker 1 0) (by cases h.marker <;> decide) h.payload_type hpt
  simp only [RtpHeader.read_bytes, RtpHeader.write_bytes, toBeBytes16, toBeBytes32,
    List.cons_append, List.nil_append, List.append_assoc]
  simp only [List.getD_cons_zero, List.getD_cons_succ]
  rw [hb0v, hb0p, hb0e, hb0c, hb1m, hb1pt]
  rw [fromBeBytes16_toBeBytes16 h.sequence_number hseq,
    fromBeBytes32_toBeBytes32 h.timestamp hts,
    fromBeBytes32_toBeBytes32 h.ssrc hssrc]
  rw [Prod.mk.injEq]
  refine ⟨?_, by omega⟩
  rw [RtpHeader.mk.injEq]
  refine ⟨rfl, by cases h.padding <;> simp, by cases h.extension <;> simp, rfl,
    by cases h.marker <;> simp, rfl, rfl, rfl, rfl, ?_⟩
  rw [hcl_len]
  refine Eq.trans (List.map_congr_left fun i _ => ?_) (csrc_read_flatMap h.csrc_list hcl)
  rw [show 12 + i * 4 = i * 4 + 12 by omega]
  simp

/-- Witness for C6 at a concrete header with two CSRCs. -/
theorem rtp_header_read_write_roundtrip_witness :
    RtpHeader.read_bytes (RtpHeader.write_bytes
        ⟨2, true, false, 2, true, 96, 23, 100, 25, [122, 125]⟩) =
      (⟨2, true, false, 2, true, 96, 23, 100, 25, [122, 125]⟩, 12 + 4 * 2) :=
  rtp_header_read_write_roundtrip ⟨2, true, false, 2, true, 96, 23, 100, 25, [122, 125]⟩
    (by decide) (by decide) (by decide) (by decide) (by decide) (by decide) (by decide)
    (by decide)

/-! ## `rtc/jitter_buffer/frame_buffer.rs` and `j_buffer.rs`

The jitter buffer only reads a packet's sequence number, timestamp and
marker bit (`RtpPacket::get_sequence_number/get_timestamp/get_marker`), so
packets are embedded as those three fields; the payload plays no role in
the verified properties.  The `HashMap<u32, FrameBuffer>` is embedded as an
association list in insertion order, which fixes one iteration order for
the loops inside `pop`. -/

/-- The fields of `RtpPacket` observed by the jitter buffer. -/
structure RtpPacketM where
  sequence_number : Nat
  timestamp : Nat
  marker : Bool
deriving DecidableEq, Repr

/-- `FrameBuffer`: packets of one frame plus the marker flag. -/
structure FrameBuffer where
  packets : List RtpPacketM
  marker_received : Bool
deriving DecidableEq, Repr

/-- `FrameBuffer::new`. -/
def FrameBuffer.new : FrameBuffer := ⟨[], false⟩

/-- `FrameBuffer::push`: records the marker bit and appends the packet. -/
def FrameBuffer.push (f : FrameBuffer) (packet : RtpPacketM) : FrameBuffer :=
  { packets := f.packets ++ [packet]
    marker_received := if packet.marker then true else f.marker_received }

/-- `FrameBuffer::is_complete`: marker seen and at least one packet. -/
def FrameBuffer.is_complete (f : FrameBuffer) : Bool :=
  f.marker_received && !f.packets.isEmpty

/-- `JitterBuffer`: timestamp-keyed frames plus the last emitted timestamp. -/
structure JitterBuffer where
  frames : List (Nat × FrameBuffer)
  last_timestamp : Option Nat
deriving DecidableEq, Repr

/-- `JitterBuffer::new`. -/
def JitterBuffer.new : JitterBuffer := ⟨[], none⟩

/-- `JitterBuffer::push`: `frames.entry(ts).or_default().push(packet)`. -/
def JitterBuffer.push (jb : JitterBuffer) (packet : RtpPacketM) : JitterBuffer :=
  let timestap := packet.timestamp
  if (jb.frames.find? (fun e => e.1 == timestap)).isSome then
    { jb with frames := jb.frames.map (fun e =>
        if e.1 == timestap then (e.1, e.2.push packet) else e) }
  else
    { jb with frames := jb.frames ++ [(timestap, FrameBuffer.new.push packet)] }

/-- `JitterBuffer::is_timestamp_newer`: `ts1.wrapping_sub(ts2) < 0x8000_0000`. -/
def JitterBuffer.is_timestamp_newer (ts1 ts2 : Nat) : Bool :=
  decide (wrappingSub32 ts1 ts2 < 2 ^ 31)

/-- The stale-removal loop at the top of `JitterBuffer::pop`: drop every
frame whose timestamp is not newer than the last emitted one. -/
def JitterBuffer.prune_stale (frames : List (Nat × FrameBuffer)) (last : Option Nat) :
    List (Nat × FrameBuffer) :=
  match last with
  | some last_ts => frames.filter (fun e => JitterBuffer.is_timestamp_newer e.1 last_ts)
  | none => frames

/-- The `min_timestamp` loop inside `JitterBuffer::pop`. -/
def JitterBuffer.min_timestamp_of (frames : List (Nat × FrameBuffer)) : Option Nat :=
  frames.foldl (fun acc e =>
    match acc with
    | none => some e.1
    | some current_min =>
      if !JitterBuffer.is_timestamp_newer e.1 current_min then some e.1 else acc) none

/-- `JitterBuffer::pop`.  Returns the emitted frame (if any) together with
the mutated buffer (`&mut self` in Rust); note the stale frames are removed
even on the `None` paths. -/
def JitterBuffer.pop (jb : JitterBuffer) : Option FrameBuffer × JitterBuffer :=
  if jb.frames.isEmpty then (none, jb)
  else
    let frames1 := JitterBuffer.prune_stale jb.frames jb.last_timestamp
    match JitterBuffer.min_timestamp_of frames1 with
    | none => (none, { jb with frames := frames1 })
    | some ts =>
      if frames1.any (fun e => !e.2.is_complete && !JitterBuffer.is_timestamp_newer e.1 ts) then
        (none, { jb with frames := frames1 })
      else
        match frames1.find? (fun e => e.1 == ts) with
        | some e =>
          if e.2.is_complete then
            (some e.2, { frames := frames1.filter (fun e2 => !(e2.1 == ts)),
                         last_timestamp := some ts })
          else (none, { jb with frames := frames1 })
        | none => (none, { jb with frames := frames1 })

lemma min_timestamp_of_mem : ∀ (frames : List (Nat × FrameBuffer)) (acc : Option Nat) (ts : Nat),
    frames.foldl (fun acc e =>
      match acc with
      | none => some e.1
      | some current_min =>
        if !JitterBuffer.is_timestamp_newer e.1 current_min then some e.1 else acc) acc = some ts →
    ts ∈ frames.map Prod.fst ∨ acc = some ts := by
  intro frames
  induction frames with
  | nil => intro acc ts hf; exact Or.inr hf
  | cons e frames ih =>
    intro acc ts hf
    simp only [List.foldl_cons] at hf
    rcases ih _ _ hf with hmem | hacc
    · exact Or.inl (List.mem_cons_of_mem _ hmem)
    · cases acc with
      | none => simp at hacc; simp [hacc]
      | some cm =>
        by_cases hn : JitterBuffer.is_timestamp_newer e.1 cm
        · simp [hn] at hacc; simp [hacc]
        · simp [hn] at hacc; simp [hacc]

/-- C2 (amended): whenever `pop` emits a frame, that frame is complete (it
has seen the marker bit); every incomplete frame that survives the stale
prune (i.e. that is newer than the last emitted timestamp) is strictly
newer than the emitted timestamp; and the emitted timestamp is newer — in
the wrap sense `a − b < 2^31`, which allows equality — than the previously
emitted one, which becomes the new `last_timestamp`. -/
theorem jitter_pop_invariants (jb : JitterBuffer) (f : FrameBuffer) (jb' : JitterBuffer)
    (hpop : jb.pop = (some f, jb')) :
    f.is_complete = true ∧
    ∃ ts, jb'.last_timestamp = some ts ∧
      (∀ lt, jb.last_timestamp = some lt → JitterBuffer.is_timestamp_newer ts lt = true) ∧
      (∀ e ∈ jb.frames, e.2.is_complete = false →
        (∀ lt, jb.last_timestamp = some lt →
          JitterBuffer.is_timestamp_newer e.1 lt = true) →
        JitterBuffer.is_timestamp_newer e.1 ts = true) := by
  unfold JitterBuffer.pop at hpop
  dsimp only at hpop
  split at hpop
  · exact absurd (congrArg Prod.fst hpop) (by simp)
  · split at hpop
    · exact absurd (congrArg Prod.fst hpop) (by simp)
    · rename_i ts hmin
      split at hpop
      · exact absurd (congrArg Prod.fst hpop) (by simp)
      · rename_i hany
        split at hpop
        · rename_i e hfind
          split at hpop
          · rename_i hcomp
            obtain ⟨hf, hjb'⟩ := Prod.mk.injEq .. ▸ hpop
            have hfe : e.2 = f := Option.some_inj.mp hf
            refine ⟨hfe ▸ hcomp, ts, ?_, ?_, ?_⟩
            · rw [← hjb']
            · intro lt hlt
              rcases min_timestamp_of_mem _ none ts hmin with hmem | hnone
              · rw [hlt] at hmem
                simp only [JitterBuffer.prune_stale, List.mem_map] at hmem
                obtain ⟨e', he', hfst⟩ := hmem
                rw [List.mem_filter] at he'
                exact hfst ▸ he'.2
              · exact absurd hnone (by simp)
            · intro e0 he0 hinc hnewer
              have he0' : e0 ∈ JitterBuffer.prune_stale jb.frames jb.last_timestamp := by
                cases hlast : jb.last_timestamp with
                | none => simpa [JitterBuffer.prune_stale, hlast] using he0
                | some lt =>
                  simp only [JitterBuffer.prune_stale, hlast]
                  exact List.mem_filter.mpr ⟨he0, hnewer lt hlast⟩
              have hany' : ((JitterBuffer.prune_stale jb.frames jb.last_timestamp).any
                  fun e => !e.2.is_complete && !JitterBuffer.is_timestamp_newer e.1 ts) = false := by
                simpa using hany
              have hne := List.any_eq_false.mp hany' e0 he0'
              by_contra hn
              have hnf : JitterBuffer.is_timestamp_newer e0.1 ts = false := by
                cases hx : JitterBuffer.is_timestamp_newer e0.1 ts
                · rfl
                · exact absurd hx hn
              exact hne (by simp [hinc, hnf])
          · exact absurd (congrArg Prod.fst hpop) (by simp)
        · exact absurd (congrArg Prod.fst hpop) (by simp)

/-- Witness for C2 (amended) on a one-frame buffer. -/
theorem jitter_pop_invariants_witness :
    FrameBuffer.is_complete ⟨[⟨1, 5, true⟩], true⟩ = true :=
  (jitter_pop_invariants ⟨[(5, ⟨[⟨1, 5, true⟩], true⟩)], none⟩ ⟨[⟨1, 5, true⟩], true⟩
    ⟨[], some 5⟩ (by decide)).1

/-- Counterexample to C2 as stated: after emitting the frame of timestamp
10, pushing an incomplete frame at timestamp `10 + 2^31` (older than 10 by
the wrap comparison) and a complete frame again at timestamp 10 makes `pop`
emit timestamp 10 a second time — consecutive emitted timestamps are 10,
10, not strictly increasing — and it does so while the strictly older
incomplete frame is still in the buffer. -/
theorem jitter_pop_claim_counterexample :
    ((((JitterBuffer.new.push ⟨1, 10, true⟩).pop).2.push ⟨2, 2147483658, false⟩).push
        ⟨3, 10, true⟩).pop =
      (some ⟨[⟨3, 10, true⟩], true⟩, ⟨[], some 10⟩) ∧
    ((JitterBuffer.new.push ⟨1, 10, true⟩).pop).2.last_timestamp = some 10 ∧
    (((((JitterBuffer.new.push ⟨1, 10, true⟩).pop).2.push ⟨2, 2147483658, false⟩).push
        ⟨3, 10, true⟩).frames.any (fun e =>
          !e.2.is_complete && !JitterBuffer.is_timestamp_newer e.1 10)) = true := by
  decide

/-! ## `codec/h264/{nalu_header,fu_header,encoder}.rs` and
`rtc/rtc_rtp/rtc_rtp_sender.rs` (H.264 packetization) -/

/-- `NaluHeader`: forbidden bit, NRI, NAL type. -/
structure NaluHeader where
  forbidden_zero_bit : Bool
  nri : Nat
  nalu_type : Nat
deriving DecidableEq, Repr

/-- `NaluHeader::read_byte`. -/
def NaluHeader.read_byte (byte : Nat) : NaluHeader :=
  ⟨(byte >>> 7) &&& 1 != 0, (byte >>> 5) &&& 3, byte &&& 31⟩

/-- `FuHeader`: start/end/reserved bits and the carried NAL type. -/
structure FuHeader where
  start_bit : Bool
  end_bit : Bool
  reserved : Bool
  payload_type : Nat
deriving DecidableEq, Repr

/-- `SingleNalUnitPacket`. -/
structure SingleNalUnitPacket where
  nalu_header : NaluHeader
  payload : List Nat
deriving DecidableEq, Repr

/-- `FragmentationUnitTypeA`. -/
structure FragmentationUnitTypeA where
  fu_indicator : NaluHeader
  fu_header : FuHeader
  payload : List Nat
deriving DecidableEq, Repr

/-- `H264VideoType`: a single-NAL or FU-A RTP payload. -/
inductive H264VideoType where
  | Single (p : SingleNalUnitPacket)
  | Fragmented (p : FragmentationUnitTypeA)
deriving DecidableEq, Repr

/-- `slice::chunks` (the Rust method panics on chunk size 0; it is never
called that way — `split_nal` uses 900). -/
def chunks (chunk_size : Nat) (bytes : List Nat) : List (List Nat) :=
  if h : bytes = [] ∨ chunk_size = 0 then []
  else bytes.take chunk_size :: chunks chunk_size (bytes.drop chunk_size)
termination_by bytes.length
decreasing_by
  push_neg at h
  simp only [List.length_drop]
  have : bytes.length ≠ 0 := by simpa using h.1
  omega

/-- `H264Encoder::split_nal`: 900-byte chunks. -/
def H264Encoder.split_nal (bytes : List Nat) : List (List Nat) :=
  chunks 900 bytes

/-- The scanning loop of `H264Encoder::split_by_startcode`: `i` is the loop
index over `0..data.len().saturating_sub(3)` and the structural `fuel`
argument counts the remaining iterations (`fuel = data.length - 3 - i`
throughout); `start` is the start of the current NAL slice and `nalus` the
accumulator.  On loop exit the tail `data[start..]` is pushed when
non-empty. -/
def sbs_loop (data : List Nat) (i start : Nat) (nalus : List (List Nat)) :
    Nat → List (List Nat)
  | 0 => nalus ++ (if start < data.length then [data.drop start] else [])
  | fuel + 1 =>
    if (data.drop i).take 4 == [0, 0, 0, 1] then
      sbs_loop data (i + 1) (i + 4)
        (if i > start then nalus ++ [(data.drop start).take (i - start)] else nalus) fuel
    else sbs_loop data (i + 1) start nalus fuel

/-- `H264Encoder::split_by_startcode`. -/
def H264Encoder.split_by_startcode (data : List Nat) : List (List Nat) :=
  sbs_loop data 0 0 [] (data.length - 3)

/-- The per-NAL-unit dispatch of `RtcRtpSender::send_video_payload`: a NAL
of at most 900 bytes goes through `send_single_nalu`, a longer one through
`send_fragmented_nalu`, which emits one FU-A packet per `split_nal` chunk
of `nalu[1..]` with the start bit on the first chunk and the end bit on the
last.  The RTP header, SRTP protection and the socket write do not affect
the packet count or the FU bits and are not part of this projection. -/
def nalu_payloads (nalu : List Nat) : List H264VideoType :=
  let nalu_header := NaluHeader.read_byte (nalu.getD 0 0)
  if nalu.length ≤ 900 then
    [H264VideoType.Single ⟨nalu_header, nalu.drop 1⟩]
  else
    let vec_fu_a := H264Encoder.split_nal (nalu.drop 1)
    let total_fu_a := vec_fu_a.length
    vec_fu_a.mapIdx (fun i byte_slice =>
      H264VideoType.Fragmented
        ⟨⟨nalu_header.forbidden_zero_bit, nalu_header.nri, 28⟩,
         ⟨i == 0, i == total_fu_a - 1, false, nalu_header.nalu_type⟩, byte_slice⟩)

/-- The H.264 payloads sent for a whole frame by `send_video_payload`. -/
def send_video_payload_payloads (frame_bytes : List Nat) : List H264VideoType :=
  (H264Encoder.split_by_startcode frame_bytes).flatMap nalu_payloads

lemma sbs_loop_ne_nil : ∀ (fuel : Nat) (data : List Nat) (i start : Nat)
    (acc : List (List Nat)), i + fuel ≤ data.length - 3 → (∀ x ∈ acc, x ≠ []) →
    ∀ out ∈ sbs_loop data i start acc fuel, out ≠ [] := by
  intro fuel
  induction fuel with
  | zero =>
    intro data i start acc hk hacc out hout
    simp only [sbs_loop] at hout
    rcases List.mem_append.mp hout with hmem | hmem
    · exact hacc out hmem
    · rcases Nat.lt_or_ge start data.length with hs | hs
      · rw [if_pos hs] at hmem
        simp only [List.mem_singleton] at hmem
        subst hmem
        simp only [ne_eq, List.drop_eq_nil_iff]
        omega
      · rw [if_neg (by omega)] at hmem
        simp at hmem
  | succ fuel ih =>
    intro data i start acc hk hacc out hout
    simp only [sbs_loop] at hout
    by_cases hsc : (data.drop i).take 4 == [0, 0, 0, 1]
    · rw [if_pos hsc] at hout
      refine ih data (i + 1) (i + 4) _ (by omega) ?_ out hout
      intro x hx
      by_cases hgt : i > start
      · rw [if_pos hgt] at hx
        rcases List.mem_append.mp hx with hx' | hx'
        · exact hacc x hx'
        · simp only [List.mem_singleton] at hx'
          subst hx'
          simp only [ne_eq, List.take_eq_nil_iff, List.drop_eq_nil_iff]
          push_neg
          omega
      · rw [if_neg hgt] at hx
        exact hacc x hx
    · rw [if_neg hsc] at hout
      exact ih data (i + 1) start acc (by omega) hacc out hout

lemma split_by_startcode_ne_nil (data : List Nat) :
    ∀ nalu ∈ H264Encoder.split_by_startcode data, nalu ≠ [] :=
  sbs_loop_ne_nil (data.length - 3) data 0 0 [] (by omega) (by simp)

lemma chunks_of_full_length (l : List Nat) (hl : l ≠ []) (hlen : l.length ≤ 900) :
    chunks 900 l = [l] := by
  rw [chunks]
  rw [dif_neg (by simp [hl])]
  rw [List.take_of_length_le hlen, List.drop_eq_nil_of_le hlen]
  rw [chunks]
  simp

/-- C3 (amended): every NAL unit of a frame that is at most 900 bytes long
is sent as exactly one single-NAL packet carrying the NAL header and the
remaining bytes; a NAL unit of exactly 901 bytes is sent as exactly one
FU-A fragment (its 900 payload bytes fit in a single `split_nal` chunk)
with both the start and the end bit set. -/
theorem nalu_packetization (frame nalu : List Nat)
    (hmem : nalu ∈ H264Encoder.split_by_startcode frame) :
    (nalu.length ≤ 900 →
      nalu_payloads nalu =
        [H264VideoType.Single ⟨NaluHeader.read_byte (nalu.getD 0 0), nalu.drop 1⟩]) ∧
    (nalu.length = 901 →
      nalu_payloads nalu =
        [H264VideoType.Fragmented
          ⟨⟨(NaluHeader.read_byte (nalu.getD 0 0)).forbidden_zero_bit,
            (NaluHeader.read_byte (nalu.getD 0 0)).nri, 28⟩,
           ⟨true, true, false, (NaluHeader.read_byte (nalu.getD 0 0)).nalu_type⟩,
           nalu.drop 1⟩]) := by
  constructor
  · intro hle
    simp only [nalu_payloads]
    rw [if_pos hle]
  · intro h901
    simp only [nalu_payloads]
    rw [if_neg (by omega)]
    have hdrop : (nalu.drop 1).length = 900 := by
      simp [List.length_drop, h901]
    have hvec : H264Encoder.split_nal (nalu.drop 1) = [nalu.drop 1] := by
      unfold H264Encoder.split_nal
      refine chunks_of_full_length _ (fun hnil => by simp [hnil] at hdrop) (by omega)
    rw [hvec]
    rw [show ∀ (f : Nat → List Nat → H264VideoType) (a : List Nat),
      List.mapIdx f [a] = [f 0 a] from fun f a => rfl]
    simp

set_option maxRecDepth 8000 in
/-- Counterexample to C3 as stated: a 901-byte NAL unit (header byte `0x41`
followed by 900 zero bytes) is sent as exactly **one** FU-A fragment (with
both the start and the end bit set), not two: `split_nal` runs on the 900
bytes after the NAL header, which fit in one 900-byte chunk. -/
theorem nalu_901_counterexample :
    (65 :: List.replicate 900 0 : List Nat).length = 901 ∧
    nalu_payloads (65 :: List.replicate 900 0) =
      [H264VideoType.Fragmented
        ⟨⟨false, 2, 28⟩, ⟨true, true, false, 1⟩, List.replicate 900 0⟩] ∧
    (nalu_payloads (65 :: List.replicate 900 0)).length ≠ 2 := by
  have hp : nalu_payloads (65 :: List.replicate 900 0) =
      [H264VideoType.Fragmented
        ⟨⟨false, 2, 28⟩, ⟨true, true, false, 1⟩, List.replicate 900 0⟩] := by
    simp only [nalu_payloads]
    rw [if_neg (by simp)]
    rw [show (65 :: List.replicate 900 0 : List Nat).drop 1 = List.replicate 900 0 from rfl]
    have hvec : H264Encoder.split_nal (List.replicate 900 (0 : Nat)) =
        [List.replicate 900 0] := by
      unfold H264Encoder.split_nal
      exact chunks_of_full_length _ (by simp) (by simp)
    rw [hvec]
    rw [show ∀ (f : Nat → List Nat → H264VideoType) (a : List Nat),
      List.mapIdx f [a] = [f 0 a] from fun f a => rfl]
    simp [NaluHeader.read_byte]
    decide
  exact ⟨by simp, hp, by rw [hp]; simp⟩

/-- Witness for C3 (amended) on a frame with one 3-byte NAL. -/
theorem nalu_packetization_witness :
    nalu_payloads [65, 1, 2] =
      [H264VideoType.Single ⟨NaluHeader.read_byte 65, [1, 2]⟩] :=
  ((nalu_packetization ([0, 0, 0, 1] ++ [65, 1, 2]) [65, 1, 2] (by decide)).1 (by decide))

/-! ## `ice/candidate.rs`, `ice/pair.rs`, `ice/gathering.rs`,
`ice/connectivity.rs` (ICE candidates and priorities) -/

/-- `CandidateType`. -/
inductive CandidateType where
  | Host
  | Srflx
  | Relay
deriving DecidableEq, Repr

/-- `IceCandidate`. -/
structure IceCandidate where
  name : String
  address : String
  port : Nat
  candidate_type : CandidateType
  priority : Nat
deriving DecidableEq, Repr

/-- `CandidatePairState`. -/
inductive CandidatePairState where
  | Waiting
  | InProgress
  | Succeeded
  | Failed
deriving DecidableEq, Repr

/-- `CandidatePair`. -/
structure CandidatePair where
  local_candidate : IceCandidate
  remote_candidate : IceCandidate
  state : CandidatePairState
deriving DecidableEq, Repr

/-- The `type_pref` match inside `calculate_priority`:
Host = 126, Srflx = 100, Relay = 0. -/
def type_preference : CandidateType → Nat
  | .Host => 126
  | .Srflx => 100
  | .Relay => 0

/-- `ice/gathering.rs::calculate_priority`:
`(1 << 24) * type_pref + (1 << 8) * local_pref + (256 - 1)` in `u32`
arithmetic. -/
def calculate_priority (candidate_type : CandidateType) (local_pref : Nat) : Nat :=
  ((1 <<< 24) * type_preference candidate_type + (1 <<< 8) * local_pref + (256 - 1)) % 2 ^ 32

/-- The pair-priority computation shared by `sort_pairs_by_priority` and
`calculate_pair_priority` in `ice/connectivity.rs`:
`(1u64 << 32) * min(G, D) + 2 * max(G, D) + (G > D ? 1 : 0)` in `u64`
arithmetic, with `G`/`D` the local/remote candidate priorities. -/
def calculate_pair_priority (pair : CandidatePair) : Nat :=
  let g := pair.local_candidate.priority
  let d := pair.remote_candidate.priority
  ((1 <<< 32) * min g d + 2 * max g d + if g > d then 1 else 0) % 2 ^ 64

/-- `sort_pairs_by_priority`: a stable sort (Rust `sort_by` with comparator
`b.priority.cmp(&a.priority)`) in descending pair priority, embedded with
the stable `List.mergeSort`. -/
def sort_pairs_by_priority (pairs : List CandidatePair) : List CandidatePair :=
  pairs.mergeSort (fun a b => calculate_pair_priority b ≤ calculate_pair_priority a)

/-- Counterexample to C4 as stated: at `G = D = 2^32 − 1` (both `u32`
priorities maximal) the `u64` computation wraps: the code yields
`2^32 − 2`, not the claimed `2^32 * min(G,D) + 2 * max(G,D) + 0 =
2^64 + 2^32 − 2`. -/
theorem pair_priority_counterexample :
    calculate_pair_priority
        ⟨⟨"l", "a", 1, .Host, 2 ^ 32 - 1⟩, ⟨"r", "b", 2, .Host, 2 ^ 32 - 1⟩, .Waiting⟩ =
      2 ^ 32 - 2 ∧
    ¬ calculate_pair_priority
        ⟨⟨"l", "a", 1, .Host, 2 ^ 32 - 1⟩, ⟨"r", "b", 2, .Host, 2 ^ 32 - 1⟩, .Waiting⟩ =
      2 ^ 32 * min (2 ^ 32 - 1) (2 ^ 32 - 1) + 2 * max (2 ^ 32 - 1) (2 ^ 32 - 1) := by
  constructor
  · decide
  · decide

/-- C4 (amended): the pair priority is computed in wrapping 64-bit
arithmetic and equals `2^32·min(G,D) + 2·max(G,D) + (G > D ? 1 : 0)`
whenever that value fits in a `u64` (which holds for all priorities
produced by `calculate_priority`); for `G = D` the tie term is `0`; and
`sort_pairs_by_priority` deterministically (stably) orders any pair list in
descending order of this value. -/
theorem pair_priority_formula_and_sort (pair : CandidatePair) (pairs : List CandidatePair)
    (hno : 2 ^ 32 * min pair.local_candidate.priority pair.remote_candidate.priority +
      2 * max pair.local_candidate.priority pair.remote_candidate.priority +
      (if pair.local_candidate.priority > pair.remote_candidate.priority then 1 else 0) <
      2 ^ 64) :
    calculate_pair_priority pair =
      2 ^ 32 * min pair.local_candidate.priority pair.remote_candidate.priority +
        2 * max pair.local_candidate.priority pair.remote_candidate.priority +
        (if pair.local_candidate.priority > pair.remote_candidate.priority then 1 else 0) ∧
    (pair.local_candidate.priority = pair.remote_candidate.priority →
      (if pair.local_candidate.priority > pair.remote_candidate.priority then 1 else 0) = 0) ∧
    (sort_pairs_by_priority pairs).Pairwise
      (fun a b => calculate_pair_priority b ≤ calculate_pair_priority a) ∧
    (sort_pairs_by_priority pairs).Perm pairs := by
  refine ⟨?_, ?_, ?_, List.mergeSort_perm pairs _⟩
  · simp only [calculate_pair_priority]
    rw [show (1 : Nat) <<< 32 = 2 ^ 32 by decide]
    exact Nat.mod_eq_of_lt (by simpa using hno)
  · intro heq
    simp [heq]
  · have hs := @List.sorted_mergeSort CandidatePair
      (fun a b : CandidatePair => decide
        (calculate_pair_priority b ≤ calculate_pair_priority a))
      (fun a b c hab hbc => by
        simp only [decide_eq_true_eq] at hab hbc ⊢
        omega)
      (fun a b => by
        simp only [Bool.or_eq_true, decide_eq_true_eq]
        omega)
      pairs
    simpa [sort_pairs_by_priority] using hs

/-- Witness for C4 (amended) at `G = 2`, `D = 1` and a two-pair list. -/
theorem pair_priority_formula_and_sort_witness :
    calculate_pair_priority ⟨⟨"l", "a", 1, .Host, 2⟩, ⟨"r", "b", 2, .Host, 1⟩, .Waiting⟩ =
      2 ^ 32 * 1 + 2 * 2 + 1 :=
  le_antisymm
    (le_of_eq ((pair_priority_formula_and_sort
      ⟨⟨"l", "a", 1, .Host, 2⟩, ⟨"r", "b", 2, .Host, 1⟩, .Waiting⟩ [] (by decide)).1))
    (ge_of_eq ((pair_priority_formula_and_sort
      ⟨⟨"l", "a", 1, .Host, 2⟩, ⟨"r", "b", 2, .Host, 1⟩, .Waiting⟩ [] (by decide)).1))

/-- Counterexample to C5 as stated: at `localPref = 2^24` (a valid `u32`
argument) the `u32` computation wraps: for a Host candidate the code yields
`2113929471`, not the claimed `2^24·126 + 2^8·2^24 + 255 = 6408896767`. -/
theorem calculate_priority_counterexample :
    calculate_priority .Host (2 ^ 24) = 2113929471 ∧
    ¬ calculate_priority .Host (2 ^ 24) = 2 ^ 24 * 126 + 2 ^ 8 * 2 ^ 24 + 255 := by
  constructor
  · decide
  · decide

/-- C5 (amended): `calculate_priority` computes
`2^24·typePref + 2^8·localPref + 255` in wrapping `u32` arithmetic, which
equals that formula whenever it fits in a `u32` — in particular for every
`localPref ≤ 65535`; a Host candidate with `localPref = 65535` gets
priority 2130706431 and a Srflx candidate 1694498815. -/
theorem calculate_priority_formula (candidate_type : CandidateType) (local_pref : Nat)
    (hno : 2 ^ 24 * type_preference candidate_type + 2 ^ 8 * local_pref + 255 < 2 ^ 32) :
    calculate_priority candidate_type local_pref =
      2 ^ 24 * type_preference candidate_type + 2 ^ 8 * local_pref + 255 ∧
    calculate_priority .Host 65535 = 2130706431 ∧
    calculate_priority .Srflx 65535 = 1694498815 := by
  refine ⟨?_, by decide, by decide⟩
  simp only [calculate_priority]
  rw [show (1 : Nat) <<< 24 = 2 ^ 24 by decide, show (1 : Nat) <<< 8 = 2 ^ 8 by decide,
    show (256 : Nat) - 1 = 255 by decide]
  exact Nat.mod_eq_of_lt hno

/-- Witness for C5 (amended) at a Host candidate with `localPref = 65535`. -/
theorem calculate_priority_formula_witness :
    calculate_priority .Host 65535 = 2 ^ 24 * type_preference .Host + 2 ^ 8 * 65535 + 255 :=
  (calculate_priority_formula .Host 65535 (by decide)).1

/-! ## `rtc/rtc_peer_connection.rs` (role gating of SDP negotiation)

`RtcPeerConnection` holds sockets, an ICE agent, DTLS and SCTP state; the
embedding keeps the negotiation-visible fields the role-gating properties
talk about (`role`, `local_description`, `remote_description`,
`remote_credentials`).  The results of the effectful sub-computations —
the SDP rendered by `build_local_description` and the
`(ufrag, pwd, fingerprint)` triple extracted by `process_remote_sdp` — are
passed in as parameters, since the role guard under verification runs
before any of them can alter the state. -/

/-- `PeerConnectionRole`. -/
inductive PeerConnectionRole where
  | Controlling
  | Controlled
deriving DecidableEq, Repr

/-- `PeerConnectionRole::is_controlling`. -/
def PeerConnectionRole.is_controlling : PeerConnectionRole → Bool
  | .Controlling => true
  | .Controlled => false

/-- The variants of `PeerConnectionError` the negotiation paths produce. -/
inductive PeerConnectionError where
  | InvalidRole (msg : String)
  | Sdp (msg : String)
deriving DecidableEq, Repr

/-- The negotiation-visible state of `RtcPeerConnection`. -/
structure RtcPeerConnection where
  role : PeerConnectionRole
  local_description : Option String
  remote_description : Option String
  remote_credentials : Option (String × String)
deriving DecidableEq, Repr

/-- `validate_dtls_fingerprint` (`rtc/sdp_negotiation.rs`): a missing
remote fingerprint is an `Sdp` error. -/
def validate_dtls_fingerprint (fingerprint : Option String) :
    Except PeerConnectionError String :=
  match fingerprint with
  | some f => Except.ok f
  | none => Except.error (.Sdp "Remote SDP is missing DTLS fingerprint")

/-- `RtcPeerConnection::create_offer`: fails with `InvalidRole` unless the
peer is controlling; otherwise stores and returns the built offer
(`built_offer` stands for the SDP rendered by `build_local_description`). -/
def RtcPeerConnection.create_offer (pc : RtcPeerConnection) (built_offer : String) :
    Except PeerConnectionError String × RtcPeerConnection :=
  if !pc.role.is_controlling then
    (Except.error (.InvalidRole "create_offer can only be used by a controlling peer"), pc)
  else
    (Except.ok built_offer, { pc with local_description := some built_offer })

/-- `RtcPeerConnection::process_offer`: fails with `InvalidRole` for a
controlling peer; otherwise processes the parsed remote SDP (`parsed`
stands for the result of `process_remote_sdp`), validates the fingerprint,
and stores descriptions, credentials and the built answer. -/
def RtcPeerConnection.process_offer (pc : RtcPeerConnection) (offer_sdp : String)
    (parsed : Except PeerConnectionError (String × String × Option String))
    (built_answer : String) :
    Except PeerConnectionError String × RtcPeerConnection :=
  if pc.role.is_controlling then
    (Except.error (.InvalidRole "process_offer can only be used by a controlled peer"), pc)
  else
    match parsed with
    | .error e => (Except.error e, pc)
    | .ok (ufrag, pwd, fingerprint) =>
      match validate_dtls_fingerprint fingerprint with
      | .error e => (Except.error e, pc)
      | .ok _ =>
        (Except.ok built_answer,
          { pc with
            remote_description := some offer_sdp
            remote_credentials := some (ufrag, pwd)
            local_description := some built_answer })

/-- `RtcPeerConnection::set_remote_description`: fails with `InvalidRole`
unless the peer is controlling; otherwise stores the remote description and
credentials. -/
def RtcPeerConnection.set_remote_description (pc : RtcPeerConnection) (remote_sdp : String)
    (parsed : Except PeerConnectionError (String × String × Option String)) :
    Except PeerConnectionError Unit × RtcPeerConnection :=
  if !pc.role.is_controlling then
    (Except.error (.InvalidRole "set_remote_description can only be used by a controlling peer"),
      pc)
  else
    match parsed with
    | .error e => (Except.error e, pc)
    | .ok (ufrag, pwd, fingerprint) =>
      match validate_dtls_fingerprint fingerprint with
      | .error e => (Except.error e, pc)
      | .ok _ =>
        (Except.ok (),
          { pc with
            remote_description := some remote_sdp
            remote_credentials := some (ufrag, pwd) })

/-- C7: on the wrong role, `create_offer`, `process_offer` and
`set_remote_description` fail with `InvalidRole` and leave the connection
state — in particular the local/remote descriptions and the remote
credentials — unchanged. -/
theorem role_gating (pc : RtcPeerConnection) (built_offer offer_sdp remote_sdp built_answer :
      String)
    (parsed parsed2 : Except PeerConnectionError (String × String × Option String)) :
    (pc.role = .Controlled →
      pc.create_offer built_offer =
        (Except.error (.InvalidRole "create_offer can only be used by a controlling peer"),
          pc)) ∧
    (pc.role = .Controlling →
      pc.process_offer offer_sdp parsed built_answer =
        (Except.error (.InvalidRole "process_offer can only be used by a controlled peer"),
          pc)) ∧
    (pc.role = .Controlled →
      pc.set_remote_description remote_sdp parsed2 =
        (Except.error
          (.InvalidRole "set_remote_description can only be used by a controlling peer"),
          pc)) := by
  refine ⟨fun hrole => ?_, fun hrole => ?_, fun hrole => ?_⟩
  · simp [RtcPeerConnection.create_offer, hrole, PeerConnectionRole.is_controlling]
  · simp [RtcPeerConnection.process_offer, hrole, PeerConnectionRole.is_controlling]
  · simp [RtcPeerConnection.set_remote_description, hrole, PeerConnectionRole.is_controlling]

/-- Witness for C7 on concrete connections of each role. -/
theorem role_gating_witness :
    RtcPeerConnection.create_offer ⟨.Controlled, none, none, none⟩ "offer" =
      (Except.error (.InvalidRole "create_offer can only be used by a controlling peer"),
        ⟨.Controlled, none, none, none⟩) ∧
    RtcPeerConnection.process_offer ⟨.Controlling, none, none, none⟩ "offer"
        (Except.ok ("u", "p", some "fp")) "answer" =
      (Except.error (.InvalidRole "process_offer can only be used by a controlled peer"),
        ⟨.Controlling, none, none, none⟩) ∧
    RtcPeerConnection.set_remote_description ⟨.Controlled, none, none, none⟩ "sdp"
        (Except.ok ("u", "p", some "fp")) =
      (Except.error
        (.InvalidRole "set_remote_description can only be used by a controlling peer"),
        ⟨.Controlled, none, none, none⟩) :=
  ⟨(role_gating ⟨.Controlled, none, none, none⟩ "offer" "o" "r" "a"
      (Except.ok ("u", "p", some "fp")) (Except.ok ("u", "p", some "fp"))).1 rfl,
   (role_gating ⟨.Controlling, none, none, none⟩ "b" "offer" "r" "answer"
      (Except.ok ("u", "p", some "fp")) (Except.ok ("u", "p", some "fp"))).2.1 rfl,
   (role_gating ⟨.Controlled, none, none, none⟩ "b" "o" "sdp" "a"
      (Except.ok ("u", "p", some "fp")) (Except.ok ("u", "p", some "fp"))).2.2 rfl⟩

/-! ## `protocols/sdp/{value_attribute,attribute,session_description}.rs`
and `sdp_helper.rs` (SDP extraction)

`SessionDescription` also carries a version, origin, time and media
descriptions; the extraction functions under verification
(`get_ice_credentials`, `get_ice_candidates`, `get_fingerprint`,
`sdp_to_ice_candidates`) read only the attribute list, so the embedding
keeps that list. -/

/-- `ValueAttribute`. -/
inductive ValueAttribute where
  | RtpMap (payload_type : Nat) (encoding_name : String) (clock_rate : Nat)
  | PTime (v : Nat)
  | MaxPtime (v : Nat)
  | Cat (v : String)
  | IceUfrag (v : String)
  | IcePwd (v : String)
  | Candidate (foundation component : Nat) (protocol : String) (priority : Nat)
      (address : String) (port : Nat) (typ : String)
  | Fingerprint (hash_func fp : String)
  | Group (v : String)
  | MsidSemantic
deriving DecidableEq, Repr

/-- `CandidateInfo`. -/
structure CandidateInfo where
  foundation : Nat
  component : Nat
  protocol : String
  priority : Nat
  address : String
  port : Nat
  typ : String
deriving DecidableEq, Repr

/-- `Attribute` (the `property_attribute` field is irrelevant to the
accessors below and is embedded as an opaque flag). -/
structure Attribute where
  has_property_attribute : Bool
  value_attribute : Option ValueAttribute
deriving DecidableEq, Repr

/-- `Attribute::get_ice_ufrag`. -/
def Attribute.get_ice_ufrag (a : Attribute) : Option String :=
  match a.value_attribute with
  | some (.IceUfrag ufrag) => some ufrag
  | _ => none

/-- `Attribute::get_ice_pwd`. -/
def Attribute.get_ice_pwd (a : Attribute) : Option String :=
  match a.value_attribute with
  | some (.IcePwd pwd) => some pwd
  | _ => none

/-- `Attribute::get_candidate`. -/
def Attribute.get_candidate (a : Attribute) : Option CandidateInfo :=
  match a.value_attribute with
  | some (.Candidate foundation component protocol priority address port typ) =>
    some ⟨foundation, component, protocol, priority, address, port, typ⟩
  | _ => none

/-- `Attribute::get_fingerprint` (returns only the hash). -/
def Attribute.get_fingerprint (a : Attribute) : Option String :=
  match a.value_attribute with
  | some (.Fingerprint _hash_func fingerprint) => some fingerprint
  | _ => none

/-- `SessionDescription`, restricted to its attribute list. -/
structure SessionDescription where
  attributes : List Attribute
deriving DecidableEq, Repr

/-- `SessionDescription::get_ice_credentials`: one pass over the
attributes, last occurrence of each credential wins; both must be present
or the extraction errors. -/
def SessionDescription.get_ice_credentials (sdp : SessionDescription) :
    Except String (String × String) :=
  let ice_ufrag := sdp.attributes.foldl (fun acc attr =>
    match attr.get_ice_ufrag with
    | some ufrag => some ufrag
    | none => acc) none
  let ice_pwd := sdp.attributes.foldl (fun acc attr =>
    match attr.get_ice_pwd with
    | some pwd => some pwd
    | none => acc) none
  match ice_ufrag, ice_pwd with
  | some ufrag, some pwd => Except.ok (ufrag, pwd)
  | _, _ => Except.error "No Ice credentials found in the SDP"

/-- `SessionDescription::get_ice_candidates`: collects every candidate
attribute, naming them `remote-0`, `remote-1`, … -/
def SessionDescription.get_ice_candidates (sdp : SessionDescription) : List IceCandidate :=
  sdp.attributes.foldl (fun candidates attr =>
    match attr.get_candidate with
    | some candidate_info =>
      candidates ++ [{
        name := "remote-" ++ toString candidates.length
        address := candidate_info.address
        port := candidate_info.port
        candidate_type :=
          match candidate_info.typ with
          | "host" => CandidateType.Host
          | "srflx" => CandidateType.Srflx
          | "relay" => CandidateType.Relay
          | _ => CandidateType.Host
        priority := candidate_info.priority }]
    | none => candidates) []

/-- `SessionDescription::get_fingerprint`: first fingerprint attribute. -/
def SessionDescription.get_fingerprint (sdp : SessionDescription) : Option String :=
  sdp.attributes.findSome? (fun attr => attr.get_fingerprint)

/-- `sdp_helper.rs::sdp_to_ice_candidates`: credentials, candidates and the
(optional) fingerprint; missing credentials or an empty candidate list are
errors. -/
def sdp_to_ice_candidates (sdp : SessionDescription) :
    Except String (String × String × List IceCandidate × Option String) :=
  match sdp.get_ice_credentials with
  | .error e => Except.error e
  | .ok (ice_ufrag, ice_pwd) =>
    let candidates := sdp.get_ice_candidates
    let fingerprint := sdp.get_fingerprint
    if candidates.isEmpty then Except.error "No ICE candidates found in the SDP"
    else Except.ok (ice_ufrag, ice_pwd, candidates, fingerprint)

lemma foldl_last_some_eq_none (f : Attribute → Option String) :
    ∀ (l : List Attribute) (acc : Option String),
    l.foldl (fun acc attr =>
      match f attr with
      | some v => some v
      | none => acc) acc = none ↔ (acc = none ∧ ∀ a ∈ l, f a = none) := by
  intro l
  induction l with
  | nil => intro acc; simp
  | cons a l ih =>
    intro acc
    simp only [List.foldl_cons, List.mem_cons]
    cases hfa : f a with
    | none =>
      simp only [hfa]
      rw [ih]
      constructor
      · rintro ⟨h1, h2⟩
        refine ⟨h1, fun x hx => ?_⟩
        rcases hx with rfl | hx
        · exact hfa
        · exact h2 x hx
      · rintro ⟨h1, h2⟩
        exact ⟨h1, fun x hx => h2 x (Or.inr hx)⟩
    | some v =>
      simp only [hfa]
      rw [ih]
      constructor
      · rintro ⟨h1, _⟩
        cases h1
      · rintro ⟨h1, h2⟩
        exact absurd (h2 a (Or.inl rfl)) (by simp [hfa])

/-- C8 (amended): extracting the ICE session data from a remote SDP fails
exactly when the ice-ufrag line is missing, the ice-pwd line is missing, or
no candidate line is present.  A missing fingerprint line does **not** fail
the extraction — `sdp_to_ice_candidates` returns it as an `Option` — and is
instead rejected by `validate_dtls_fingerprint` in the peer connection. -/
theorem sdp_extraction_error_conditions (sdp : SessionDescription) :
    ((∃ e, sdp_to_ice_candidates sdp = Except.error e) ↔
      ((∀ a ∈ sdp.attributes, a.get_ice_ufrag = none) ∨
       (∀ a ∈ sdp.attributes, a.get_ice_pwd = none) ∨
       sdp.get_ice_candidates = [])) ∧
    validate_dtls_fingerprint none =
      Except.error (.Sdp "Remote SDP is missing DTLS fingerprint") := by
  refine ⟨?_, rfl⟩
  simp only [sdp_to_ice_candidates, SessionDescription.get_ice_credentials]
  cases hu : sdp.attributes.foldl (fun acc attr =>
      match attr.get_ice_ufrag with
      | some ufrag => some ufrag
      | none => acc) none with
  | none =>
    simp only [hu]
    exact ⟨fun _ => Or.inl ((foldl_last_some_eq_none _ _ _).mp hu).2,
      fun _ => ⟨"No Ice credentials found in the SDP", rfl⟩⟩
  | some u =>
    cases hp : sdp.attributes.foldl (fun acc attr =>
        match attr.get_ice_pwd with
        | some pwd => some pwd
        | none => acc) none with
    | none =>
      simp only [hp]
      exact ⟨fun _ => Or.inr (Or.inl ((foldl_last_some_eq_none _ _ _).mp hp).2),
        fun _ => ⟨"No Ice credentials found in the SDP", rfl⟩⟩
    | some p =>
      simp only [hp]
      by_cases hc : sdp.get_ice_candidates.isEmpty
      · simp only [hc, if_true]
        refine ⟨fun _ => Or.inr (Or.inr (List.isEmpty_iff.mp hc)), fun _ =>
          ⟨"No ICE candidates found in the SDP", rfl⟩⟩
      · simp only [hc, if_false]
        constructor
        · rintro ⟨e, he⟩
          cases he
        · rintro (hufrag | hpwd | hcand)
          · have hnone := (foldl_last_some_eq_none Attribute.get_ice_ufrag
              sdp.attributes none).mpr ⟨rfl, hufrag⟩
            rw [hnone] at hu
            cases hu
          · have hnone := (foldl_last_some_eq_none Attribute.get_ice_pwd
              sdp.attributes none).mpr ⟨rfl, hpwd⟩
            rw [hnone] at hp
            cases hp
          · exact absurd (List.isEmpty_iff.mpr hcand) hc

/-- Counterexample to C8 as stated: an SDP carrying ice-ufrag, ice-pwd and
one candidate but **no** fingerprint line is accepted by
`sdp_to_ice_candidates` (with fingerprint `none`) — a missing fingerprint
is not a parse error of the ICE extraction. -/
theorem sdp_missing_fingerprint_counterexample :
    SessionDescription.get_fingerprint
        ⟨[⟨false, some (.IceUfrag "u")⟩, ⟨false, some (.IcePwd "p")⟩,
          ⟨false, some (.Candidate 1 1 "UDP" 100 "127.0.0.1" 4444 "host")⟩]⟩ = none ∧
    sdp_to_ice_candidates
        ⟨[⟨false, some (.IceUfrag "u")⟩, ⟨false, some (.IcePwd "p")⟩,
          ⟨false, some (.Candidate 1 1 "UDP" 100 "127.0.0.1" 4444 "host")⟩]⟩ =
      Except.ok ("u", "p", [⟨"remote-0", "127.0.0.1", 4444, .Host, 100⟩], none) := by
  constructor
  · rfl
  · rfl

/-- Witness for C8 (amended): an SDP with no attributes at all is rejected. -/
theorem sdp_extraction_error_conditions_witness :
    ∃ e, sdp_to_ice_candidates ⟨[]⟩ = Except.error e :=
  (sdp_extraction_error_conditions ⟨[]⟩).1.mpr (Or.inl (by simp))

/-! ## `worker_thread/media_metrics.rs` (receiver statistics)

`ReceiverMetrics` also tracks arrival instants and a floating-point jitter
estimate; those clock/float fields feed only the `jitter`, `last_sr` and
`delay_since_last_sr` report fields, which are outside this embedding.  The
integer counters below are exactly the ones `update_receiver_on_rtp`
maintains, and a received packet contributes through its sequence number
and SSRC (`u16`/`u32`). -/

/-- The integer counters of `ReceiverMetrics`. -/
structure ReceiverMetrics where
  remote_ssrc : Option Nat
  received_packets : Nat
  lost_packets : Nat
  last_sequence : Option Nat
  sequence_cycles : Nat
  highest_ext_seq : Nat
deriving DecidableEq, Repr

/-- `ReceiverMetrics::default`. -/
def receiver_metrics_default : ReceiverMetrics := ⟨none, 0, 0, none, 0, 0⟩

/-- First mutation of `update_receiver_on_rtp`: adopt the remote SSRC on
first contact. -/
def receiver_adopt_ssrc (m : ReceiverMetrics) (ssrc : Nat) : ReceiverMetrics :=
  if m.remote_ssrc.isNone then { m with remote_ssrc := some ssrc } else m

/-- Second mutation of `update_receiver_on_rtp`:
`received_packets.wrapping_add(1)`. -/
def receiver_count_packet (m : ReceiverMetrics) : ReceiverMetrics :=
  { m with received_packets := (m.received_packets + 1) % 2 ^ 32 }

/-- Third mutation of `update_receiver_on_rtp`: when a previous sequence
number exists, add the `u16` gap `seq - (last + 1)` to the loss counter
(`saturating_add`) and bump the cycle counter on a sequence wrap
(`seq < last ∧ last − seq > 30000`). -/
def receiver_loss_update (m : ReceiverMetrics) (seq : Nat) : ReceiverMetrics :=
  match m.last_sequence with
  | some last_seq =>
    let expected := (last_seq + 1) % 2 ^ 16
    let gap := wrappingSub16 seq expected
    let m := if gap > 0 then
        { m with lost_packets := min (m.lost_packets + gap) (2 ^ 32 - 1) }
      else m
    if seq < last_seq ∧ wrappingSub16 last_seq seq > 30000 then
      { m with sequence_cycles := (m.sequence_cycles + 1) % 2 ^ 32 }
    else m
  | none => m

/-- `MediaMetrics::update_receiver_on_rtp`, restricted to the integer
counters: the three mutations above, then the refresh of the extended
highest sequence number `(cycles << 16) | seq` and of `last_sequence`. -/
def update_receiver_on_rtp (m : ReceiverMetrics) (seq ssrc : Nat) : ReceiverMetrics :=
  let m := receiver_adopt_ssrc m ssrc
  let m := receiver_count_packet m
  let m := receiver_loss_update m seq
  { m with
    highest_ext_seq := (m.sequence_cycles <<< 16) % 2 ^ 32 ||| seq
    last_sequence := some seq }

/-- The integer fields of an RTCP `ReportBlock` (jitter, LSR and DLSR are
clock-derived and outside the embedding). -/
structure ReportBlock where
  ssrc : Nat
  fraction_lost : Nat
  cumulative_lost : Nat
  highest_seq : Nat
deriving DecidableEq, Repr

/-- `ReceiverReport`. -/
structure ReceiverReport where
  reporter_ssrc : Nat
  report_blocks : List ReportBlock
deriving DecidableEq, Repr

/-- `MediaMetrics::build_receiver_report`: `None` until a remote SSRC is
known; otherwise one report block with the fraction lost
`min((lost * 256) / (received + lost), 255)` (computed in `u32`), the
24-bit-saturated cumulative loss, and the extended highest sequence. -/
def build_receiver_report (reporter_ssrc : Nat) (r : ReceiverMetrics) :
    Option ReceiverReport :=
  match r.remote_ssrc with
  | none => none
  | some remote_ssrc =>
    let expected := (r.received_packets + r.lost_packets) % 2 ^ 32
    let fraction_lost := if expected > 0 then
        min (r.lost_packets * 256 % 2 ^ 32 / expected) 255
      else 0
    let cumulative := min r.lost_packets 0xFFFFFF
    some ⟨reporter_ssrc, [⟨remote_ssrc, fraction_lost, cumulative, r.highest_ext_seq⟩]⟩

/-- The receiver state after a stream of `(seq, ssrc)` RTP packets. -/
def applyPackets (ps : List (Nat × Nat)) : ReceiverMetrics :=
  ps.foldl (fun m p => update_receiver_on_rtp m p.1 p.2) receiver_metrics_default

lemma receiver_loss_update_remote_ssrc (m : ReceiverMetrics) (seq : Nat) :
    (receiver_loss_update m seq).remote_ssrc = m.remote_ssrc := by
  simp only [receiver_loss_update]
  (repeat' split) <;> rfl

lemma update_receiver_remote_ssrc_isSome (m : ReceiverMetrics) (seq ssrc : Nat) :
    (update_receiver_on_rtp m seq ssrc).remote_ssrc.isSome := by
  simp only [update_receiver_on_rtp, receiver_loss_update_remote_ssrc, receiver_count_packet,
    receiver_adopt_ssrc]
  cases hms : m.remote_ssrc <;> simp [hms]

lemma update_receiver_last_and_highest (m : ReceiverMetrics) (seq ssrc : Nat) :
    (update_receiver_on_rtp m seq ssrc).last_sequence = some seq ∧
    (update_receiver_on_rtp m seq ssrc).highest_ext_seq =
      ((update_receiver_on_rtp m seq ssrc).sequence_cycles <<< 16) % 2 ^ 32 ||| seq :=
  ⟨rfl, rfl⟩

lemma applyPackets_remote_ssrc_isSome : ∀ (ps : List (Nat × Nat)) (m : ReceiverMetrics),
    ps ≠ [] → (ps.foldl (fun m p => update_receiver_on_rtp m p.1 p.2) m).remote_ssrc.isSome := by
  intro ps
  induction ps with
  | nil => intro m h; exact absurd rfl h
  | cons p ps ih =>
    intro m _
    by_cases hqs : ps = []
    · subst hqs
      simpa using update_receiver_remote_ssrc_isSome m p.1 p.2
    · simp only [List.foldl_cons]
      exact ih (update_receiver_on_rtp m p.1 p.2) hqs

/-- C9 (amended): `build_receiver_report` returns `Some` exactly when at
least one RTP packet has been received; the emitted block carries the
24-bit-saturated cumulative loss, the extended highest sequence number
`(cycles << 16) | seq`, and `fractionLost = min(255, 256·lost/(received+lost))`
(`0` when `received + lost = 0`) — the fraction is computed in wrapping
`u32` arithmetic, so the closed formula holds whenever `256·lost` and
`received + lost` fit in a `u32`. -/
theorem build_receiver_report_correct (reporter_ssrc : Nat) (ps : List (Nat × Nat)) :
    ((build_receiver_report reporter_ssrc (applyPackets ps)).isSome ↔ ps ≠ []) ∧
    (∀ rr, build_receiver_report reporter_ssrc (applyPackets ps) = some rr →
      256 * (applyPackets ps).lost_packets < 2 ^ 32 →
      (applyPackets ps).received_packets + (applyPackets ps).lost_packets < 2 ^ 32 →
      ∃ remote_ssrc, (applyPackets ps).remote_ssrc = some remote_ssrc ∧
        rr = ⟨reporter_ssrc, [⟨remote_ssrc,
          (if (applyPackets ps).received_packets + (applyPackets ps).lost_packets = 0 then 0
           else min 255 (256 * (applyPackets ps).lost_packets /
             ((applyPackets ps).received_packets + (applyPackets ps).lost_packets))),
          min (applyPackets ps).lost_packets (2 ^ 24 - 1),
          (applyPackets ps).highest_ext_seq⟩]⟩) ∧
    (∀ sq, (applyPackets ps).last_sequence = some sq →
      (applyPackets ps).highest_ext_seq =
        ((applyPackets ps).sequence_cycles <<< 16) % 2 ^ 32 ||| sq) := by
  refine ⟨?_, ?_, ?_⟩
  · constructor
    · intro hsome hnil
      subst hnil
      simp [applyPackets, receiver_metrics_default, build_receiver_report] at hsome
    · intro hne
      have hs : (applyPackets ps).remote_ssrc.isSome :=
        applyPackets_remote_ssrc_isSome ps receiver_metrics_default hne
      rw [Option.isSome_iff_exists] at hs
      obtain ⟨x, hx⟩ := hs
      simp [build_receiver_report, hx]
  · intro rr hrr h256 hsum
    cases hx : (applyPackets ps).remote_ssrc with
    | none => simp [build_receiver_report, hx] at hrr
    | some remote_ssrc =>
      refine ⟨remote_ssrc, rfl, ?_⟩
      simp only [build_receiver_report, hx] at hrr
      have hmod : (applyPackets ps).received_packets + (applyPackets ps).lost_packets <
          2 ^ 32 := hsum
      rw [Nat.mod_eq_of_lt hmod] at hrr
      have h256' : (applyPackets ps).lost_packets * 256 < 2 ^ 32 := by omega
      rw [Nat.mod_eq_of_lt h256'] at hrr
      have heq := Option.some_inj.mp hrr
      rw [← heq]
      have hfrac : (if (applyPackets ps).received_packets + (applyPackets ps).lost_packets > 0
          then min ((applyPackets ps).lost_packets * 256 /
            ((applyPackets ps).received_packets + (applyPackets ps).lost_packets)) 255 else 0)
          = (if (applyPackets ps).received_packets + (applyPackets ps).lost_packets = 0 then 0
             else min 255 (256 * (applyPackets ps).lost_packets /
               ((applyPackets ps).received_packets + (applyPackets ps).lost_packets))) := by
        by_cases hz : (applyPackets ps).received_packets + (applyPackets ps).lost_packets = 0
        · simp [hz]
        · rw [if_pos (by omega), if_neg hz,
            Nat.min_comm ((applyPackets ps).lost_packets * 256 /
              ((applyPackets ps).received_packets + (applyPackets ps).lost_packets)) 255,
            Nat.mul_comm (applyPackets ps).lost_packets 256]
      rw [hfrac]
      norm_num
  · intro sq hsq
    rcases List.eq_nil_or_concat ps with hnil | ⟨qs, q, hcat⟩
    · subst hnil
      simp [applyPackets, receiver_metrics_default] at hsq
    · subst hcat
      simp only [List.concat_eq_append] at hsq ⊢
      have hfold : applyPackets (qs ++ [q]) =
          update_receiver_on_rtp (applyPackets qs) q.1 q.2 := by
        simp [applyPackets, List.foldl_append]
      rw [hfold] at hsq ⊢
      obtain ⟨hlast, hhigh⟩ := update_receiver_last_and_highest (applyPackets qs) q.1 q.2
      rw [hlast] at hsq
      cases hsq
      exact hhigh

lemma applyPackets_append_singleton (l : List (Nat × Nat)) (x : Nat × Nat) :
    applyPackets (l ++ [x]) = update_receiver_on_rtp (applyPackets l) x.1 x.2 := by
  simp [applyPackets, List.foldl_append]

lemma applyPackets_replicate_zeros : ∀ n : Nat,
    applyPackets (List.replicate (n + 2) (0, 7)) =
      ⟨some 7, (n + 2) % 2 ^ 32, min ((n + 1) * 65535) (2 ^ 32 - 1), some 0, 0, 0⟩ := by
  intro n
  induction n with
  | zero => decide
  | succ n ih =>
    rw [show n + 1 + 2 = (n + 2) + 1 from rfl, List.replicate_succ']
    rw [applyPackets_append_singleton, ih]
    simp only [update_receiver_on_rtp, receiver_adopt_ssrc, receiver_count_packet,
      receiver_loss_update, wrappingSub16]
    norm_num
    omega

lemma applyPackets_258 :
    applyPackets (List.replicate 258 (0, 7)) =
      ⟨some 7, 258, 16842495, some 0, 0, 0⟩ := by
  have h := applyPackets_replicate_zeros 256
  norm_num at h
  exact h

/-- Counterexample to C9 as stated: after 258 packets all carrying sequence
number 0 (each repeat counts a gap of 65535 lost packets, so
`lost = 257 · 65535 = 16842495 > 2^24`), the `u32` product `lost * 256`
wraps: the code reports `fractionLost = 0` while the claimed formula
`min(255, 256·lost/(received+lost))` gives 255. -/
theorem receiver_report_fraction_counterexample :
    (build_receiver_report 1 (applyPackets (List.replicate 258 (0, 7)))).map
        (fun rr => rr.report_blocks.map (fun b => b.fraction_lost)) = some [0] ∧
    min 255 (256 * (applyPackets (List.replicate 258 (0, 7))).lost_packets /
      ((applyPackets (List.replicate 258 (0, 7))).received_packets +
        (applyPackets (List.replicate 258 (0, 7))).lost_packets)) = 255 := by
  rw [applyPackets_258]
  constructor
  · decide
  · decide

/-- Witness for C9 (amended): one received packet makes the report
available. -/
theorem build_receiver_report_correct_witness :
    (build_receiver_report 1 (applyPackets [(5, 7)])).isSome :=
  (build_receiver_report_correct 1 [(5, 7)]).1.mpr (by simp)
